import Mathlib

/-!
Verification development for the agent execution engine of the
browser-operator-devtools-frontend repository.

The definitions below are a shallow embedding of:
  * `AgentRunner.run` and `AgentRunner.executeHandoff`
    (front_end/panels/ai_chat/agent_framework/AgentRunner.ts), and
  * `createAgentGraphFromConfig` and the `routeOrPrepareToolExecutor`
    condition (front_end/panels/ai_chat/core/ConfigurableGraph.ts).

External collaborators (the LLM client, tool `execute` implementations,
the page-context enhancer) are modelled as oracle functions carried by an
environment record: the n-th LLM call of a run is answered by `Env.llm n`,
and a tool invocation is answered by the tool's own `exec` function.
Prompt strings (system prompt, formatted history) are not modelled because
the LLM oracle is indexed by call count, which subsumes any dependence of
the response on the prompt text; for the same reason `apiKey`, `modelName`
and `temperature`, which are only passed through to the LLM client, are
omitted from the runner configuration.

JavaScript dynamic values that flow through the runner (tool arguments and
tool results) are modelled by the `JSValue` type together with JS
truthiness, own-property lookup and the `||` operator, so that the
runner's duck-typed error detection (`hasOwnProperty('error')`,
`success === false`, `a || b`) is transcribed exactly.
-/

namespace BrowserOperator

/-- Model of a JavaScript runtime value, restricted to the shapes that can
reach the agent runner's tool-result handling: `undefined`, `null`,
booleans, numbers (integers suffice for the stated properties), strings
and plain objects (association lists of own properties with unique keys). -/
inductive JSValue : Type where
  | undef : JSValue
  | null : JSValue
  | bool : Bool → JSValue
  | num : Int → JSValue
  | str : String → JSValue
  | obj : List (String × JSValue) → JSValue

/-- JS truthiness: `undefined`, `null`, `false`, `0` and `""` are falsy;
every object is truthy. -/
def truthy : JSValue → Bool
  | JSValue.undef => false
  | JSValue.null => false
  | JSValue.bool b => b
  | JSValue.num n => decide (n ≠ 0)
  | JSValue.str s => decide (s ≠ "")
  | JSValue.obj _ => true

/-- Own-property lookup on an object's field list: `fields.hasOwnProperty k`
holds exactly when `own fields k` is `some`. -/
def own (fields : List (String × JSValue)) (k : String) : Option JSValue :=
  match fields with
  | [] => none
  | (k0, v) :: rest => if k0 = k then some v else own rest k

/-- JS property access `o.k`: the own property's value, or `undefined`. -/
def ownD (fields : List (String × JSValue)) (k : String) : JSValue :=
  (own fields k).getD JSValue.undef

/-- The JS `||` operator on values: the left operand if truthy, else the
right operand. -/
def jsOr (a b : JSValue) : JSValue :=
  if truthy a then a else b

mutual

/-- Rendering of a `JSValue` as text, standing in for `JSON.stringify`.
The exact formatting (indentation, escaping) is immaterial to every
property stated in this file: no theorem inspects the rendered text. -/
def jsStringify : JSValue → String
  | JSValue.undef => "undefined"
  | JSValue.null => "null"
  | JSValue.bool b => if b then "true" else "false"
  | JSValue.num n => toString n
  | JSValue.str s => "\"" ++ s ++ "\""
  | JSValue.obj fields => "\x7b" ++ jsStringifyFields fields ++ "\x7d"

/-- Renders an object's field list for `jsStringify`. -/
def jsStringifyFields : List (String × JSValue) → String
  | [] => ""
  | [(k, v)] => "\"" ++ k ++ "\": " ++ jsStringify v
  | (k, v) :: rest => "\"" ++ k ++ "\": " ++ jsStringify v ++ ", " ++ jsStringifyFields rest

end

/-- Association-list lookup, modelling `Map.get` / `ToolRegistry.getRegisteredTool`
(first matching key; keys are unique by construction via `mapSet`). -/
def lookupMap {α : Type} : List (String × α) → String → Option α
  | [], _ => none
  | (k0, v) :: rest, k => if k0 = k then some v else lookupMap rest k

/-- Association-list update, modelling `Map.set`: overwrites the value of an
existing key in place, otherwise appends the new entry (JS `Map` keeps the
original insertion position on overwrite). -/
def mapSet {α : Type} : List (String × α) → String → α → List (String × α)
  | [], k, v => [(k, v)]
  | (k0, v0) :: rest, k, v =>
      if k0 = k then (k0, v) :: rest else (k0, v0) :: mapSet rest k v

/-- Termination reasons of an agent run
(`AgentRunTerminationReason` in ConfigurableAgentTool.ts). -/
inductive AgentRunTerminationReason : Type where
  | final_answer : AgentRunTerminationReason
  | max_iterations : AgentRunTerminationReason
  | handed_off : AgentRunTerminationReason
  | error : AgentRunTerminationReason
deriving DecidableEq

/-- A tool-result message (`ToolResultMessage` in ChatView.ts; the type
declaration is outside the provided sources, its fields are taken from the
spec's data model and from every construction site in AgentRunner.ts).
`resultText` is a `JSValue` because the runner can assign a non-string
field value to it through `toolResultData.error || toolResultText`. -/
structure ToolResultMessage : Type where
  toolName : String
  resultText : JSValue
  isError : Bool
  error : Option JSValue
  resultData : Option JSValue

/-- A conversation message (`ChatMessage` in ChatView.ts, outside the
provided sources; the variants and their fields follow the spec's data
model and the construction sites in AgentRunner.ts). -/
inductive ChatMessage : Type where
  | user : String → ChatMessage
  | modelTool : String → JSValue → Option String → ChatMessage
  | modelFinal : String → Option String → ChatMessage
  | toolResult : ToolResultMessage → ChatMessage

/-- Whether a message is a user message (`m.entity === ChatMessageEntity.USER`). -/
def isUserMessage : ChatMessage → Bool
  | ChatMessage.user _ => true
  | _ => false

/-- Outcome of awaiting a tool's `execute`: a returned value or a thrown
fault with its message. -/
inductive ToolOutcome : Type where
  | ret : JSValue → ToolOutcome
  | thrown : String → ToolOutcome

/-- A plain tool descriptor: name and `execute` behaviour. `description`
and `schema` are only forwarded to the LLM client and are omitted. -/
structure ToolDef : Type where
  name : String
  exec : JSValue → ToolOutcome

/-- Handoff triggers (`HandoffTrigger` in ConfigurableAgentTool.ts). -/
inductive HandoffTrigger : Type where
  | llm_tool_call : HandoffTrigger
  | max_iterations : HandoffTrigger
deriving DecidableEq

/-- A handoff descriptor (`HandoffConfig` in ConfigurableAgentTool.ts):
target agent name, optional trigger, optional allow-list of tool names
whose results are carried forward. -/
structure HandoffConfig : Type where
  targetAgentName : String
  trigger : Option HandoffTrigger
  includeToolResults : Option (List String)

/-- Result of an agent run (`ConfigurableAgentResult`), per the spec's
external interface: success flag, output or error text, optionally the
message history, and a termination reason. -/
structure ConfigurableAgentResult : Type where
  success : Bool
  output : Option String
  error : Option String
  intermediateSteps : Option (List ChatMessage)
  terminationReason : Option AgentRunTerminationReason

/-- Configuration of a configurable agent (`ConfigurableAgentConfig`):
the fields consulted by `AgentRunner.run` / `executeHandoff`. `modelName`
and `temperature` are pass-through values for the LLM client and are
omitted (see the module comment). The optional result-factory hooks are
modelled with the target config already applied, matching how
`executeHandoff` wraps them. -/
structure AgentToolConfig : Type where
  tools : List String
  maxIterations : Option Nat
  handoffs : Option (List HandoffConfig)
  includeIntermediateStepsOnReturn : Option Bool
  createSuccessResult :
    Option (String → List ChatMessage → AgentRunTerminationReason → ConfigurableAgentResult)
  createErrorResult :
    Option (String → List ChatMessage → AgentRunTerminationReason → ConfigurableAgentResult)

/-- A configurable agent tool (`ConfigurableAgentTool`): a named agent
configuration that is also a tool. `exec` abstracts its `execute` method
(which runs the agent), used only when such an agent is invoked as a
regular tool rather than through the handoff branch. -/
structure ConfigurableAgentTool : Type where
  name : String
  config : AgentToolConfig
  exec : JSValue → ToolOutcome

/-- An entry of the tool registry or of a runner's tool list: either a
plain tool or a configurable agent tool (`instanceof ConfigurableAgentTool`
distinguishes the two in the source). -/
inductive RegisteredTool : Type where
  | plain : ToolDef → RegisteredTool
  | agent : ConfigurableAgentTool → RegisteredTool

/-- The name of a registered tool. -/
def rtName : RegisteredTool → String
  | RegisteredTool.plain t => t.name
  | RegisteredTool.agent a => a.name

/-- The `execute` behaviour of a registered tool. -/
def execOfEntry : RegisteredTool → JSValue → ToolOutcome
  | RegisteredTool.plain t, v => t.exec v
  | RegisteredTool.agent a, v => a.exec v

/-- `AgentRunnerConfig`, keeping the fields that drive control flow
(`tools`, `maxIterations`); see the module comment for the omitted
pass-through fields. -/
structure AgentRunnerConfig : Type where
  tools : List RegisteredTool
  maxIterations : Nat

/-- `AgentRunnerHooks`: optional initial-message transformer and the two
result factories. -/
structure AgentRunnerHooks : Type where
  prepareInitialMessages : Option (List ChatMessage → List ChatMessage)
  createSuccessResult :
    String → List ChatMessage → AgentRunTerminationReason → ConfigurableAgentResult
  createErrorResult :
    String → List ChatMessage → AgentRunTerminationReason → ConfigurableAgentResult

/-- A parsed LLM action (`ParsedLLMAction`): a tool call, a final answer,
or a protocol error. -/
inductive ParsedAction : Type where
  | toolCall : String → JSValue → ParsedAction
  | finalAnswer : String → ParsedAction
  | parseError : String → ParsedAction

/-- Outcome of one call to the external LLM client: a thrown transport
fault, or a response that parses to an action (with optional reasoning
summary attached to the response). -/
inductive LLMOutcome : Type where
  | fail : String → LLMOutcome
  | ok : ParsedAction → Option String → LLMOutcome

/-- The external environment of a run: the tool registry and the LLM
oracle. `llm n` is the outcome of the (zero-based) n-th LLM call made
while the environment is in scope; nested (handoff) runs draw from the
same sequence. -/
structure Env : Type where
  registry : List (String × RegisteredTool)
  llm : Nat → LLMOutcome

/-- The observable outcome of a run: the returned result, the runner's own
message list at the point of return, and the LLM call counter after the
run (so `nextCall - k` is the number of LLM calls the run made when
started at counter `k`). -/
structure RunOut : Type where
  result : ConfigurableAgentResult
  finalMessages : List ChatMessage
  nextCall : Nat

/-- The `system_error` diagnostic tool-result message the runner appends
when the LLM call throws or when action processing throws
(AgentRunner.ts, the two `systemErrorMessage` constructions). -/
def systemErrorMessage (errorMsg : String) : ToolResultMessage :=
  { toolName := "system_error"
    resultText := JSValue.str errorMsg
    isError := true
    error := some (JSValue.str errorMsg)
    resultData := none }

/-- The catch-all of the action-processing `try` block in `AgentRunner.run`:
prefixes the fault message with `Agent loop error: `, appends a
`system_error` tool-result message, and returns the error hook's result
with reason `error`. -/
def agentLoopFail (hooks : AgentRunnerHooks) (messages : List ChatMessage)
    (k : Nat) (inner : String) : RunOut :=
  let errorMsg := "Agent loop error: " ++ inner
  let msgs2 := messages ++ [ChatMessage.toolResult (systemErrorMessage errorMsg)]
  ⟨hooks.createErrorResult errorMsg msgs2 AgentRunTerminationReason.error, msgs2, k⟩

/-- The tool-result message built for a tool whose `execute` threw
(AgentRunner.ts, the tool-execution `catch` and the message push that
follows it). -/
def mkThrownToolResult (toolName : String) (errText : String) : ToolResultMessage :=
  let text := "Error during tool execution: " ++ errText
  { toolName := toolName
    resultText := JSValue.str text
    isError := true
    error := some (JSValue.str text)
    resultData := some (JSValue.obj [("error", JSValue.str text)]) }

/-- The explicit-success check of the runner's result inspection:
`toolResultData.hasOwnProperty('success') && toolResultData.success === false`,
with the error text chosen as `data.error || data.message || toolResultText`. -/
def objSuccessFlag (fields : List (String × JSValue)) (text0 : JSValue) :
    Bool × JSValue :=
  match own fields "success" with
  | some (JSValue.bool false) =>
      (true, jsOr (ownD fields "error") (jsOr (ownD fields "message") text0))
  | _ => (false, text0)

/-- The explicit-error check of the runner's result inspection:
`toolResultData.hasOwnProperty('error') && !!toolResultData.error` first,
falling through to the `success === false` check. -/
def objErrorFlag (fields : List (String × JSValue)) (text0 : JSValue) :
    Bool × JSValue :=
  match own fields "error" with
  | some ev => if truthy ev then (true, ev) else objSuccessFlag fields text0
  | none => objSuccessFlag fields text0

/-- Error-flag computation for a value returned normally by a tool
(`typeof toolResultData === 'object' && toolResultData !== null` guard,
then the two explicit checks). Returns the flag and the result text. -/
def toolResultFlag (v : JSValue) (text0 : JSValue) : Bool × JSValue :=
  match v with
  | JSValue.obj fields => objErrorFlag fields text0
  | _ => (false, text0)

/-- The tool-result message built for a tool whose `execute` returned `v`
normally: result text is `v` itself when it is a string and its rendering
otherwise, the error flag and text come from `toolResultFlag`, the `error`
field is present exactly when the flag is set, and `resultData` is present
exactly when `v` is truthy (the `...(toolResultData && ...)` spread). -/
def mkRetToolResult (toolName : String) (v : JSValue) : ToolResultMessage :=
  let text0 : JSValue :=
    match v with
    | JSValue.str s => JSValue.str s
    | _ => JSValue.str (jsStringify v)
  let p := toolResultFlag v text0
  { toolName := toolName
    resultText := p.2
    isError := p.1
    error := if p.1 then some p.2 else none
    resultData := if truthy v then some v else none }

/-- Whether a handoff descriptor's trigger admits an LLM tool call:
`!handoffConfig.trigger || handoffConfig.trigger === 'llm_tool_call'`. -/
def llmTriggered (hc : HandoffConfig) : Bool :=
  match hc.trigger with
  | none => true
  | some HandoffTrigger.llm_tool_call => true
  | some HandoffTrigger.max_iterations => false

/-- The predicate used to find the handoff descriptor matching an
LLM-invoked handoff pseudo-tool: same target name, and a trigger that is
unset or `llm_tool_call`. -/
def llmHandoffPred (targetName : String) (hc : HandoffConfig) : Bool :=
  targetName == hc.targetAgentName && llmTriggered hc

/-- Finds the executing agent's handoff descriptor matching an LLM-invoked
handoff pseudo-tool (`executingAgent?.config.handoffs?.find(...)`). -/
def llmHandoffLookup (executingAgent : Option ConfigurableAgentTool)
    (targetName : String) : Option HandoffConfig :=
  match executingAgent with
  | some ag => (ag.config.handoffs.getD []).find? (llmHandoffPred targetName)
  | none => none

/-- Finds a `max_iterations`-triggered handoff descriptor of the executing
agent, for the epilogue after the loop exhausts its budget. -/
def maxIterHandoffLookup (executingAgent : Option ConfigurableAgentTool) :
    Option HandoffConfig :=
  match executingAgent with
  | some ag =>
      (ag.config.handoffs.getD []).find?
        (fun hc =>
          match hc.trigger with
          | some HandoffTrigger.max_iterations => true
          | _ => false)
  | none => none

/-- The runner's tool map: every configured tool keyed by name (duplicate
names are last-write-wins, as for a JS `Map` built from pairs), plus one
`handoff_to_<target>` entry per LLM-triggered handoff descriptor whose
target resolves in the registry to a configurable agent tool. -/
def buildToolMap (env : Env) (tools : List RegisteredTool)
    (executingAgent : Option ConfigurableAgentTool) : List (String × RegisteredTool) :=
  let base := tools.foldl (fun m t => mapSet m (rtName t) t) []
  match executingAgent with
  | none => base
  | some ag =>
      (ag.config.handoffs.getD []).foldl
        (fun m hc =>
          if llmTriggered hc then
            match lookupMap env.registry hc.targetAgentName with
            | some (RegisteredTool.agent a) =>
                mapSet m ("handoff_to_" ++ hc.targetAgentName) (RegisteredTool.agent a)
            | _ => m
          else m)
        base

/-- The guard on the history filter: `handoffConfig.includeToolResults &&
handoffConfig.includeToolResults.length > 0` (an absent list is falsy; an
empty array is truthy but fails the length test). -/
def includeCond (hc : HandoffConfig) : Bool :=
  match hc.includeToolResults with
  | some l => decide (0 < l.length)
  | none => false

/-- The collection pass of `executeHandoff`: the non-error tool-result
messages whose (truthy, i.e. non-empty) tool name is in the allow-list, in
their original order. -/
def collectAllowed (allow : List String) (msgs : List ChatMessage) : List ChatMessage :=
  msgs.filter
    (fun m =>
      match m with
      | ChatMessage.toolResult tr =>
          !tr.isError && !(tr.toolName == "") && allow.contains tr.toolName
      | _ => false)

/-- The transferred message history built by `executeHandoff`
(lines 77-102 of AgentRunner.ts): with a truthy non-empty allow-list, the
first user message of the source history (if any) followed by the
collected tool results; otherwise the entire source history. -/
def handoffFilter (hc : HandoffConfig) (currentMessages : List ChatMessage) :
    List ChatMessage :=
  let collected :=
    if includeCond hc then collectAllowed (hc.includeToolResults.getD []) currentMessages
    else []
  if includeCond hc then
    (match currentMessages.find? isUserMessage with
     | some u => [u]
     | none => []) ++ collected
  else currentMessages

/-- `targetConfig.maxIterations || defaultMaxIterations`: the target's own
budget unless it is absent or `0` (falsy). -/
def orElseNatPos (o : Option Nat) (d : Nat) : Nat :=
  match o with
  | some n => if n = 0 then d else n
  | none => d

/-- Placeholder result produced only when the handoff-recursion fuel of
the model runs out; the source has no such case (its handoff recursion is
unbounded), and every theorem below supplies enough fuel to keep this
branch unreachable. -/
def outOfFuelResult : ConfigurableAgentResult :=
  { success := false
    output := none
    error := some "handoff recursion fuel exhausted"
    intermediateSteps := none
    terminationReason := none }

/-- The type of the recursive runner passed to the handoff executor. -/
def RunnerSig : Type :=
  List ChatMessage → JSValue → AgentRunnerConfig → AgentRunnerHooks →
    Option ConfigurableAgentTool → Nat → RunOut

/-- `AgentRunner.executeHandoff`, parameterised by the recursive runner it
invokes on the target agent. Resolves the target in the registry (an
unknown name or a plain tool yields the error result immediately), builds
the transferred history with `handoffFilter`, constructs the target's
runner configuration and hooks (its own tools resolved from the registry,
its own budget with fallback, its own result factories with fallback,
no initial-message hook), runs the target with the LLM-supplied args when
present (else the original args), and post-processes the result: the
termination reason defaults to `handed_off`, and the intermediate steps
are either replaced by pre-handoff history plus target history (when the
target opts in) or removed entirely. -/
def execHandoffWith (env : Env) (runner : RunnerSig)
    (currentMessages : List ChatMessage) (originalArgs : JSValue)
    (handoffConfig : HandoffConfig) (defaultMaxIterations : Nat)
    (defaultCreateSuccessResult defaultCreateErrorResult :
      String → List ChatMessage → AgentRunTerminationReason → ConfigurableAgentResult)
    (llmToolArgs : Option JSValue) (k : Nat) : RunOut :=
  match lookupMap env.registry handoffConfig.targetAgentName with
  | some (RegisteredTool.agent targetAgentTool) =>
      let targetConfig := targetAgentTool.config
      let handoffMessages := handoffFilter handoffConfig currentMessages
      let targetRunnerConfig : AgentRunnerConfig :=
        { tools := targetConfig.tools.filterMap (fun tn => lookupMap env.registry tn)
          maxIterations := orElseNatPos targetConfig.maxIterations defaultMaxIterations }
      let targetRunnerHooks : AgentRunnerHooks :=
        { prepareInitialMessages := none
          createSuccessResult := targetConfig.createSuccessResult.getD defaultCreateSuccessResult
          createErrorResult := targetConfig.createErrorResult.getD defaultCreateErrorResult }
      let targetAgentArgs := llmToolArgs.getD originalArgs
      let ho := runner handoffMessages targetAgentArgs targetRunnerConfig targetRunnerHooks
        (some targetAgentTool) k
      if targetConfig.includeIntermediateStepsOnReturn = some true then
        ⟨{ ho.result with
            intermediateSteps :=
              some (currentMessages ++ (ho.result.intermediateSteps.getD []))
            terminationReason :=
              some (ho.result.terminationReason.getD AgentRunTerminationReason.handed_off) },
          currentMessages, ho.nextCall⟩
      else
        ⟨{ ho.result with
            intermediateSteps := none
            terminationReason :=
              some (ho.result.terminationReason.getD AgentRunTerminationReason.handed_off) },
          currentMessages, ho.nextCall⟩
  | _ =>
      let errorMsg := "Handoff target \x27" ++ handoffConfig.targetAgentName ++
        "\x27 not found or is not a ConfigurableAgentTool."
      ⟨defaultCreateErrorResult errorMsg currentMessages AgentRunTerminationReason.error,
        currentMessages, k⟩

/-- The iteration loop of `AgentRunner.run`, parameterised by the handoff
executor. The fuel argument counts the remaining iterations
(`maxIterations - iteration`); when it reaches zero the epilogue runs: a
configured `max_iterations` handoff if present, else the error result with
reason `max_iterations`. Each iteration consumes exactly one LLM outcome:
a transport fault is fatal (diagnostic message, error result); a final
answer returns the success result; a parse error is fatal through the
catch-all; a tool call pushes the model message and dispatches — an
unknown name is fatal through the catch-all, a `handoff_to_`-named
configurable agent triggers the handoff (fatal catch-all when no matching
descriptor exists), and any other entry executes, appends one tool-result
message (error-flagged on a thrown fault or an explicit error payload) and
continues with the next iteration. -/
def runLoopAux (env : Env)
    (doHandoff : List ChatMessage → JSValue → HandoffConfig → Option JSValue → Nat → RunOut)
    (hooks : AgentRunnerHooks) (executingAgent : Option ConfigurableAgentTool)
    (toolMap : List (String × RegisteredTool)) (args : JSValue) (maxIter : Nat) :
    Nat → List ChatMessage → Nat → RunOut
  | 0, messages, k =>
    (match maxIterHandoffLookup executingAgent with
     | some hc =>
        let ho := doHandoff messages args hc none k
        ⟨ho.result, messages, ho.nextCall⟩
     | none =>
        ⟨hooks.createErrorResult
            ("Agent reached maximum iterations (" ++ toString maxIter ++ ")")
            messages AgentRunTerminationReason.max_iterations,
          messages, k⟩)
  | fuel + 1, messages, k =>
    (match env.llm k with
     | LLMOutcome.fail m =>
        let errorMsg := "LLM call failed: " ++ m
        let msgs2 := messages ++ [ChatMessage.toolResult (systemErrorMessage errorMsg)]
        ⟨hooks.createErrorResult errorMsg msgs2 AgentRunTerminationReason.error, msgs2, k + 1⟩
     | LLMOutcome.ok pa rs =>
        match pa with
        | ParsedAction.finalAnswer ans =>
            let msgs2 := messages ++ [ChatMessage.modelFinal ans rs]
            ⟨hooks.createSuccessResult ans msgs2 AgentRunTerminationReason.final_answer,
              msgs2, k + 1⟩
        | ParsedAction.parseError e => agentLoopFail hooks messages (k + 1) e
        | ParsedAction.toolCall toolName toolArgs =>
            let msgs1 := messages ++ [ChatMessage.modelTool toolName toolArgs rs]
            match lookupMap toolMap toolName with
            | none =>
                agentLoopFail hooks msgs1 (k + 1)
                  ("Agent requested unknown tool: " ++ toolName)
            | some entry =>
                match entry, toolName.startsWith "handoff_to_" with
                | RegisteredTool.agent a, true =>
                    (match llmHandoffLookup executingAgent a.name with
                     | some hc =>
                        let ho := doHandoff msgs1 toolArgs hc (some toolArgs) (k + 1)
                        ⟨ho.result, msgs1, ho.nextCall⟩
                     | none =>
                        agentLoopFail hooks msgs1 (k + 1)
                          ("Internal error: No matching \x27llm_tool_call\x27 handoff config found for "
                            ++ toolName))
                | e, _ =>
                    match execOfEntry e toolArgs with
                    | ToolOutcome.thrown em =>
                        runLoopAux env doHandoff hooks executingAgent toolMap args maxIter
                          fuel
                          (msgs1 ++ [ChatMessage.toolResult (mkThrownToolResult toolName em)])
                          (k + 1)
                    | ToolOutcome.ret v =>
                        runLoopAux env doHandoff hooks executingAgent toolMap args maxIter
                          fuel
                          (msgs1 ++ [ChatMessage.toolResult (mkRetToolResult toolName v)])
                          (k + 1))

namespace AgentRunner

/-- `AgentRunner.run`, with a fuel argument bounding the depth of handoff
recursion (the source bounds nothing; every theorem supplies enough fuel).
Copies the initial messages, applies the `prepareInitialMessages` hook if
present, builds the tool map, and runs the iteration loop with
`maxIterations` iterations of budget, handing handoffs to
`execHandoffWith` at one level less of fuel. -/
def run (env : Env) : Nat → RunnerSig
  | 0 => fun initialMessages _ _ _ _ k => ⟨outOfFuelResult, initialMessages, k⟩
  | hfuel + 1 => fun initialMessages args config hooks executingAgent k =>
      let messages :=
        match hooks.prepareInitialMessages with
        | some f => f initialMessages
        | none => initialMessages
      let toolMap := buildToolMap env config.tools executingAgent
      runLoopAux env
        (fun cur oArgs hc la k2 =>
          execHandoffWith env (run env hfuel) cur oArgs hc config.maxIterations
            hooks.createSuccessResult hooks.createErrorResult la k2)
        hooks executingAgent toolMap args config.maxIterations
        config.maxIterations messages k

/-- `AgentRunner.executeHandoff` at a given handoff-recursion fuel:
`execHandoffWith` applied to the runner itself. -/
def executeHandoff (env : Env) (hfuel : Nat)
    (currentMessages : List ChatMessage) (originalArgs : JSValue)
    (handoffConfig : HandoffConfig) (defaultMaxIterations : Nat)
    (defaultCreateSuccessResult defaultCreateErrorResult :
      String → List ChatMessage → AgentRunTerminationReason → ConfigurableAgentResult)
    (llmToolArgs : Option JSValue) (k : Nat) : RunOut :=
  execHandoffWith env (run env hfuel) currentMessages originalArgs handoffConfig
    defaultMaxIterations defaultCreateSuccessResult defaultCreateErrorResult llmToolArgs k

end AgentRunner

/-- Declarative node description of a graph configuration
(`GraphNodeConfig` in ConfigurableGraph.ts). -/
structure GraphNodeConfig : Type where
  name : String
  type : String

/-- Declarative edge description (`GraphEdgeConfig`): source node,
condition type tag, and the routing-key-to-target-name map. -/
structure GraphEdgeConfig : Type where
  source : String
  conditionType : String
  targetMap : List (String × String)

/-- Declarative graph description (`GraphConfig`). -/
structure GraphConfig : Type where
  name : String
  entryPoint : String
  nodes : List GraphNodeConfig
  edges : List GraphEdgeConfig

/-- The kind of node registered in the state graph. The node-factory
implementations (`createAgentNode` etc. in Graph.ts) are outside the
provided sources; their invocation behaviour is not needed by any stated
property, so nodes are identified by which factory produced them. -/
inductive GraphNodeKind : Type where
  | agentNode : GraphNodeKind
  | finalNode : GraphNodeKind
  | toolExecutorPlaceholder : String → GraphNodeKind
  | dummyUnknownType : String → String → GraphNodeKind
  | dynamicToolExecutor : GraphNodeKind

/-- State of a `StateGraph` instance while it is being configured:
registered nodes, conditional edges, and the entry point.
Modelled from the spec: StateGraph.ts is outside the provided sources;
per the spec's Graph Engine contract the graph holds named nodes, static
or conditional edges, and a designated entry node. -/
structure StateGraphModel : Type where
  name : String
  nodes : List (String × GraphNodeKind)
  edges : List GraphEdgeConfig
  entryPoint : Option String

/-- Modelled from the spec: `StateGraph.addNode` registers a node under a
name; name collisions are last-write-wins, matching the spec's registry
policy and the claim that the dynamic tool-executor registration may
overwrite an existing node. -/
def addNodeModel (g : StateGraphModel) (nodeName : String) (kind : GraphNodeKind) :
    StateGraphModel :=
  { g with nodes := mapSet g.nodes nodeName kind }

/-- Modelled from the spec: `StateGraph.addConditionalEdges` records a
conditional edge (source, router, target map); the router function itself
is `routeOrPrepareToolExecutorModel` below for the condition type this
file reasons about. -/
def addConditionalEdgesModel (g : StateGraphModel) (ec : GraphEdgeConfig) :
    StateGraphModel :=
  { g with edges := g.edges ++ [ec] }

/-- Modelled from the spec: `StateGraph.setEntryPoint` designates the
first node to run. -/
def setEntryPointModel (g : StateGraphModel) (nodeName : String) : StateGraphModel :=
  { g with entryPoint := some nodeName }

/-- Modelled from the spec: `StateGraph.compile` freezes the graph into an
executable form; compiling with zero nodes, or without an entry point that
names a registered node, is a fatal configuration error. -/
def compileModel (g : StateGraphModel) : Except String StateGraphModel :=
  if g.nodes.isEmpty then Except.error "compile: no nodes"
  else
    match g.entryPoint with
    | none => Except.error "compile: no entry point"
    | some e =>
        if (lookupMap g.nodes e).isSome then Except.ok g
        else Except.error "compile: entry point not a registered node"

/-- The node-factory table of `createAgentGraphFromConfig`: known types
`agent`, `final` and `toolExecutor` map to their factories; the fallback
for an unknown type is the diagnostic dummy node. -/
def nodeFactoryFor (nc : GraphNodeConfig) : GraphNodeKind :=
  if nc.type = "agent" then GraphNodeKind.agentNode
  else if nc.type = "final" then GraphNodeKind.finalNode
  else if nc.type = "toolExecutor" then GraphNodeKind.toolExecutorPlaceholder nc.name
  else GraphNodeKind.dummyUnknownType nc.type nc.name

/-- The condition-factory table's known keys: an edge whose condition type
is not one of these is skipped with a warning. -/
def knownConditionType (t : String) : Bool :=
  t == "routeBasedOnLastMessage" || t == "alwaysAgent" || t == "routeOrPrepareToolExecutor"

/-- `createAgentGraphFromConfig` (ConfigurableGraph.ts): adds every
declared node (unknown types degrade to dummy nodes), adds every edge with
a known condition type, then sets the entry point — the declared name if
it matches a node, else the first declared node, and with zero nodes the
build fails with the fatal configuration error — and compiles. -/
def createAgentGraphFromConfig (config : GraphConfig) :
    Except String StateGraphModel :=
  let g0 : StateGraphModel := ⟨config.name, [], [], none⟩
  let g1 := config.nodes.foldl (fun g nc => addNodeModel g nc.name (nodeFactoryFor nc)) g0
  let g2 := config.edges.foldl
    (fun g ec => if knownConditionType ec.conditionType then addConditionalEdgesModel g ec else g)
    g1
  match config.nodes.find? (fun n => n.name == config.entryPoint) with
  | some _ => compileModel (setEntryPointModel g2 config.entryPoint)
  | none =>
      match config.nodes with
      | [] =>
          Except.error
            "[ConfigurableGraph] No nodes defined in graph config, cannot set entry point."
      | n :: _ => compileModel (setEntryPointModel g2 n.name)

/-- Modelled from the spec: the string tag `NodeType.TOOL_EXECUTOR.toString()`
(Types.ts is outside the provided sources). Its concrete spelling is
immaterial to every property stated about the router, which only compares
routing keys for equality. -/
def toolExecutorKeyTag : String := "tool_executor"

/-- The graph-run state threaded through nodes and routers (`AgentState`).
Only the fields any stated property could observe are kept; the router
under study consults the state exclusively through the `routeNextNode`
function it is parameterised by. -/
structure AgentState : Type where
  messages : List ChatMessage
  error : Option String

/-- The `routeOrPrepareToolExecutor` condition of ConfigurableGraph.ts,
parameterised by `routeNextNode` (Graph.ts, outside the provided sources).
Computes the routing key; when it is the tool-executor key, looks the key
up in the edge's target map — a truthy name different from `__end__` gets
a tool-executor node dynamically registered (or overwritten) under it and
the routing key is returned, otherwise the router returns `__end__` — and
any other routing key is returned unchanged. Returns the key together
with the (possibly extended) graph instance. -/
def routeOrPrepareToolExecutorModel (routeNextNode : AgentState → String)
    (state : AgentState) (graphInstance : StateGraphModel) (edgeConfig : GraphEdgeConfig) :
    String × StateGraphModel :=
  let routingKey := routeNextNode state
  if routingKey = toolExecutorKeyTag then
    match lookupMap edgeConfig.targetMap toolExecutorKeyTag with
    | some toolExecutorNodeName =>
        if toolExecutorNodeName ≠ "" ∧ toolExecutorNodeName ≠ "__end__" then
          (routingKey, addNodeModel graphInstance toolExecutorNodeName
            GraphNodeKind.dynamicToolExecutor)
        else ("__end__", graphInstance)
    | none => ("__end__", graphInstance)
  else (routingKey, graphInstance)

/-- Result-factory hooks following the spec's description of the returned
result (success flag, output or error text, the message history, the
termination reason); used to instantiate theorems on concrete runs. -/
def defaultHooks : AgentRunnerHooks :=
  { prepareInitialMessages := none
    createSuccessResult := fun out steps reason =>
      { success := true
        output := some out
        error := none
        intermediateSteps := some steps
        terminationReason := some reason }
    createErrorResult := fun err steps reason =>
      { success := false
        output := none
        error := some err
        intermediateSteps := some steps
        terminationReason := some reason } }

/-- The transferred history exactly as claim C3 words it: with a non-empty
allow-list, the first user message (if any) followed by every non-error
tool-result message whose tool name is in the allow-list, in original
order; with no allow-list, the whole source history. (An allow-list that
is present but empty is outside the claim's two cases; this definition
follows the code there so that the comparison isolates the claimed part.) -/
def claimC3Transfer (hc : HandoffConfig) (currentMessages : List ChatMessage) :
    List ChatMessage :=
  match hc.includeToolResults with
  | some allow =>
      if 0 < allow.length then
        (match currentMessages.find? isUserMessage with
         | some u => [u]
         | none => []) ++
        currentMessages.filter
          (fun m =>
            match m with
            | ChatMessage.toolResult tr => !tr.isError && allow.contains tr.toolName
            | _ => false)
      else currentMessages
  | none => currentMessages

/-- The transferred history as claim C3 must be amended: a tool result is
carried forward only when its tool name is also non-empty (the source
additionally requires the name to be truthy). -/
def claimC3TransferAmended (hc : HandoffConfig) (currentMessages : List ChatMessage) :
    List ChatMessage :=
  match hc.includeToolResults with
  | some allow =>
      if 0 < allow.length then
        (match currentMessages.find? isUserMessage with
         | some u => [u]
         | none => []) ++
        currentMessages.filter
          (fun m =>
            match m with
            | ChatMessage.toolResult tr =>
                !tr.isError && !(tr.toolName == "") && allow.contains tr.toolName
            | _ => false)
      else currentMessages
  | none => currentMessages

/-- The error flag exactly as claim C5 words it: set whenever the result
object carries an `error` field (of any value) or carries `success: false`. -/
def claimC5Flag (fields : List (String × JSValue)) : Bool :=
  (own fields "error").isSome ||
    (match own fields "success" with
     | some (JSValue.bool false) => true
     | _ => false)

/-- The error flag as claim C5 must be amended: set whenever the result
object carries a truthy `error` field or carries `success: false`. -/
def claimC5FlagAmended (fields : List (String × JSValue)) : Bool :=
  (match own fields "error" with
   | some ev => truthy ev
   | none => false) ||
    (match own fields "success" with
     | some (JSValue.bool false) => true
     | _ => false)

/-- The router behaviour exactly as claim C10 words it, for a state whose
routing key is the tool-executor key: `__end__` when the target map has no
entry for the key or maps it to `__end__`; otherwise a tool-executor node
is registered under the mapped name and the tool-executor key is returned. -/
def claimC10Route (routeNextNode : AgentState → String) (state : AgentState)
    (graphInstance : StateGraphModel) (edgeConfig : GraphEdgeConfig) :
    String × StateGraphModel :=
  let routingKey := routeNextNode state
  if routingKey = toolExecutorKeyTag then
    match lookupMap edgeConfig.targetMap toolExecutorKeyTag with
    | some toolExecutorNodeName =>
        if toolExecutorNodeName ≠ "__end__" then
          (routingKey, addNodeModel graphInstance toolExecutorNodeName
            GraphNodeKind.dynamicToolExecutor)
        else ("__end__", graphInstance)
    | none => ("__end__", graphInstance)
  else (routingKey, graphInstance)

/-- `xs` is an initial segment of `ys`. -/
def PrefixOf {α : Type} (xs ys : List α) : Prop :=
  ∃ t, xs ++ t = ys

/-- The LLM outcome at call index `j` is a tool call resolving in the
given tool map to a plain (non-handoff) tool. -/
def PlainToolCallAt (env : Env) (toolMap : List (String × RegisteredTool)) (j : Nat) :
    Prop :=
  ∃ toolName toolArgs rs t,
    env.llm j = LLMOutcome.ok (ParsedAction.toolCall toolName toolArgs) rs ∧
    lookupMap toolMap toolName = some (RegisteredTool.plain t)

/-- The hooks carry the steps they are given into the result's
intermediate steps (the behaviour the spec ascribes to the result's
message-history field). -/
def StepsFaithful (hooks : AgentRunnerHooks) : Prop :=
  (∀ out steps reason,
    (hooks.createSuccessResult out steps reason).intermediateSteps = some steps) ∧
  (∀ err steps reason,
    (hooks.createErrorResult err steps reason).intermediateSteps = some steps)

/-- A run outcome carries `base` as a prefix: its own final message list
extends `base`, and so does any message history present on its result. -/
def CarriesOnly (base : List ChatMessage) (out : RunOut) : Prop :=
  (∀ steps, out.result.intermediateSteps = some steps → PrefixOf base steps) ∧
  PrefixOf base out.finalMessages

/-- An inert handoff executor for instantiating loop-level theorems whose
hypotheses keep the handoff branches unreachable. -/
def inertHandoff : List ChatMessage → JSValue → HandoffConfig → Option JSValue → Nat → RunOut :=
  fun cur _ _ _ k => ⟨outOfFuelResult, cur, k⟩

/-- Concrete scenario for claim C1: an empty tool map and an LLM that
always requests the unregistered tool `mystery_tool`, with an iteration
budget of 2 so that a recoverable error would have a second iteration to
continue into. -/
def envC1 : Env :=
  ⟨[], fun _ => LLMOutcome.ok (ParsedAction.toolCall "mystery_tool" (JSValue.obj [])) none⟩

/-- Runner configuration for the claim C1 scenario. -/
def cfgC1 : AgentRunnerConfig := ⟨[], 2⟩

/-- A tool that always succeeds with a plain string, for the claim C2
scenario. -/
def toolC2 : ToolDef := ⟨"t2", fun _ => ToolOutcome.ret (JSValue.str "done")⟩

/-- Concrete scenario for claim C2: the LLM always calls the registered
tool `t2`. -/
def envC2 : Env :=
  ⟨[], fun _ => LLMOutcome.ok (ParsedAction.toolCall "t2" (JSValue.obj [])) none⟩

/-- Runner configuration for the claim C2 scenario: budget of 2. -/
def cfgC2 : AgentRunnerConfig := ⟨[RegisteredTool.plain toolC2], 2⟩

/-- Executing agent for the claim C2 scenario: no handoffs configured. -/
def agentC2 : ConfigurableAgentTool :=
  ⟨"agent2", ⟨[], none, some [], none, none, none⟩, fun _ => ToolOutcome.thrown "unused"⟩

/-- A tool whose `execute` always throws, for the claim C4 scenario. -/
def toolC4 : ToolDef := ⟨"t4", fun _ => ToolOutcome.thrown "boom"⟩

/-- Concrete scenario for claim C4: the LLM always calls the registered,
always-throwing tool `t4`. -/
def envC4 : Env :=
  ⟨[], fun _ => LLMOutcome.ok (ParsedAction.toolCall "t4" (JSValue.obj [])) none⟩

/-- Tool map for the claim C4 scenario. -/
def mapC4 : List (String × RegisteredTool) := [("t4", RegisteredTool.plain toolC4)]

/-- A tool that returns `\x7b error: "" \x7d` — an object carrying an
`error` own-property whose value is falsy — for the claim C5
counterexample. -/
def toolC5 : ToolDef :=
  ⟨"t5", fun _ => ToolOutcome.ret (JSValue.obj [("error", JSValue.str "")])⟩

/-- Concrete scenario for the claim C5 counterexample. -/
def envC5 : Env :=
  ⟨[], fun _ => LLMOutcome.ok (ParsedAction.toolCall "t5" (JSValue.obj [])) none⟩

/-- Runner configuration for the claim C5 counterexample: budget of 1. -/
def cfgC5 : AgentRunnerConfig := ⟨[RegisteredTool.plain toolC5], 1⟩

/-- A tool that returns `\x7b success: false \x7d`, for the claim C5
witness. -/
def toolC5w : ToolDef :=
  ⟨"t5w", fun _ => ToolOutcome.ret (JSValue.obj [("success", JSValue.bool false)])⟩

/-- Concrete scenario for the claim C5 witness. -/
def envC5w : Env :=
  ⟨[], fun _ => LLMOutcome.ok (ParsedAction.toolCall "t5w" (JSValue.obj [])) none⟩

/-- Tool map for the claim C5 witness. -/
def mapC5w : List (String × RegisteredTool) := [("t5w", RegisteredTool.plain toolC5w)]

/-- Concrete scenario for claim C6: the LLM answers immediately. -/
def envC6 : Env := ⟨[], fun _ => LLMOutcome.ok (ParsedAction.finalAnswer "done") none⟩

/-- Initial history for the claim C6 witness. -/
def msgsC6 : List ChatMessage := [ChatMessage.user "hello"]

/-- Runner configuration for the claim C6 witness. -/
def cfgC6 : AgentRunnerConfig := ⟨[], 3⟩

/-- Concrete scenario for claim C7: an empty registry, so the handoff
target cannot resolve. -/
def envC7 : Env := ⟨[], fun _ => LLMOutcome.fail "unused"⟩

/-- Handoff descriptor for the claim C7 witness: its target is not in the
registry. -/
def hcC7 : HandoffConfig := ⟨"ghost_agent", none, none⟩

/-- Concrete scenario for claim C8: the LLM call always throws. -/
def envC8 : Env := ⟨[], fun _ => LLMOutcome.fail "connection reset"⟩

/-- Handoff descriptor for the claim C3 counterexample: a non-empty
allow-list containing the empty string. -/
def hcC3 : HandoffConfig := ⟨"target_agent", none, some [""]⟩

/-- A non-error tool-result message whose tool name is the empty string
(falsy), for the claim C3 counterexample. -/
def trEmptyName : ToolResultMessage := ⟨"", JSValue.str "ok", false, none, none⟩

/-- Source history for the claim C3 counterexample. -/
def msgsC3 : List ChatMessage := [ChatMessage.user "q", ChatMessage.toolResult trEmptyName]

/-- Graph configuration for the claim C9 witness: one node, and an entry
point name matching no node. -/
def cfgC9 : GraphConfig := ⟨"g9", "missing_entry", [⟨"nodeA", "agent"⟩], []⟩

/-- A router that always computes the tool-executor key, for the claim C10
scenarios. -/
def routeFnC10 : AgentState → String := fun _ => toolExecutorKeyTag

/-- State for the claim C10 scenarios. -/
def stateC10 : AgentState := ⟨[], none⟩

/-- Graph instance for the claim C10 scenarios. -/
def graphC10 : StateGraphModel := ⟨"g10", [], [], none⟩

/-- Edge for the claim C10 counterexample: the target map sends the
tool-executor key to the empty string (a falsy node name). -/
def edgeC10 : GraphEdgeConfig :=
  ⟨"agent", "routeOrPrepareToolExecutor", [(toolExecutorKeyTag, "")]⟩

/-- Edge for the claim C10 witness: the target map sends the tool-executor
key to the node name `execA`. -/
def edgeC10w : GraphEdgeConfig :=
  ⟨"agent", "routeOrPrepareToolExecutor", [(toolExecutorKeyTag, "execA")]⟩

theorem prefixOf_self {α : Type} (xs : List α) : PrefixOf xs xs :=
  ⟨[], List.append_nil xs⟩

theorem prefixOf_extend {α : Type} {xs ys : List α} (h : PrefixOf xs ys) (zs : List α) :
    PrefixOf xs (ys ++ zs) := by
  obtain ⟨t, ht⟩ := h
  exact ⟨t ++ zs, by rw [← List.append_assoc, ht]⟩

/-- C3: as stated the claim is false on the code. With the allow-list
`[""]` (non-empty, as the claim requires) and a source history holding a
user message and a non-error tool result whose tool name `""` is in the
allow-list, the code transfers only the user message — the filter also
requires the tool name to be truthy — while the claim's description of the
transferred history retains the tool result as well. -/
theorem claim_C3_counterexample :
    handoffFilter hcC3 msgsC3 = [ChatMessage.user "q"] ∧
    claimC3Transfer hcC3 msgsC3 =
      [ChatMessage.user "q", ChatMessage.toolResult trEmptyName] ∧
    handoffFilter hcC3 msgsC3 ≠ claimC3Transfer hcC3 msgsC3 := by
  refine ⟨rfl, rfl, fun h => ?_⟩
  exact absurd (congrArg List.length h) (by decide)

/-- C3 (amended): for every handoff descriptor with a non-empty
`includeToolResults` allow-list, the transferred history is exactly the
first user message of the source history (if any) followed by every
non-error tool-result message whose tool name is non-empty and in the
allow-list, in original relative order; with no allow-list the entire
source history is transferred unfiltered. -/
theorem claim_C3_amended (hc : HandoffConfig) (currentMessages : List ChatMessage) :
    handoffFilter hc currentMessages = claimC3TransferAmended hc currentMessages := by
  cases h : hc.includeToolResults with
  | none => simp [handoffFilter, claimC3TransferAmended, includeCond, h]
  | some allow =>
      by_cases hl : 0 < allow.length
      · simp [handoffFilter, claimC3TransferAmended, includeCond, collectAllowed, h, hl]
      · simp [handoffFilter, claimC3TransferAmended, includeCond, h, hl]

/-- The error flag computed for an object returned normally by a tool
agrees with the amended claim-C5 condition: a truthy `error` own-property,
or a `success` own-property strictly equal to `false`. -/
theorem toolResultFlag_obj (fields : List (String × JSValue)) (text0 : JSValue) :
    (toolResultFlag (JSValue.obj fields) text0).1 = claimC5FlagAmended fields := by
  unfold toolResultFlag objErrorFlag objSuccessFlag claimC5FlagAmended
  cases he : own fields "error" with
  | some ev =>
      cases htv : truthy ev with
      | true => simp [he, htv]
      | false =>
          cases hs : own fields "success" with
          | none => simp [he, htv, hs]
          | some sv =>
              cases sv with
              | bool b => cases b <;> simp [he, htv, hs]
              | undef => simp [he, htv, hs]
              | null => simp [he, htv, hs]
              | num n => simp [he, htv, hs]
              | str s => simp [he, htv, hs]
              | obj o => simp [he, htv, hs]
  | none =>
      cases hs : own fields "success" with
      | none => simp [he, hs]
      | some sv =>
          cases sv with
          | bool b => cases b <;> simp [he, hs]
          | undef => simp [he, hs]
          | null => simp [he, hs]
          | num n => simp [he, hs]
          | str s => simp [he, hs]
          | obj o => simp [he, hs]

/-- C10: as stated the claim is false on the code. With a target map
sending the tool-executor key to the empty string — an entry that is
neither absent nor the terminal sentinel — the router routes to `__end__`
without registering anything (the source also requires the mapped name to
be truthy), while the claim's description registers a tool-executor node
under the mapped name and returns the tool-executor key. -/
theorem claim_C10_counterexample :
    routeOrPrepareToolExecutorModel routeFnC10 stateC10 graphC10 edgeC10 =
      ("__end__", graphC10) ∧
    claimC10Route routeFnC10 stateC10 graphC10 edgeC10 =
      (toolExecutorKeyTag, addNodeModel graphC10 "" GraphNodeKind.dynamicToolExecutor) ∧
    ("__end__" : String) ≠ toolExecutorKeyTag :=
  ⟨rfl, rfl, by decide⟩

/-- C10 (amended): for every state on which the router computes the
tool-executor routing key, if the edge's target map has no entry for that
key, or maps it to the empty string, or maps it to the terminal sentinel
`__end__`, the router returns `__end__`; otherwise it dynamically
registers (or overwrites) a tool-executor node under the mapped name in
the graph instance and returns the tool-executor key. -/
theorem claim_C10_amended (routeFn : AgentState → String) (state : AgentState)
    (g : StateGraphModel) (ec : GraphEdgeConfig)
    (hkey : routeFn state = toolExecutorKeyTag) :
    ((lookupMap ec.targetMap toolExecutorKeyTag = none ∨
        lookupMap ec.targetMap toolExecutorKeyTag = some "" ∨
        lookupMap ec.targetMap toolExecutorKeyTag = some "__end__") →
      routeOrPrepareToolExecutorModel routeFn state g ec = ("__end__", g)) ∧
    (∀ nodeName, lookupMap ec.targetMap toolExecutorKeyTag = some nodeName →
      nodeName ≠ "" → nodeName ≠ "__end__" →
      routeOrPrepareToolExecutorModel routeFn state g ec =
        (toolExecutorKeyTag, addNodeModel g nodeName GraphNodeKind.dynamicToolExecutor)) := by
  constructor
  · intro h
    unfold routeOrPrepareToolExecutorModel
    rw [hkey]
    rcases h with h | h | h <;> simp [h]
  · intro nodeName hmap hne hnend
    unfold routeOrPrepareToolExecutorModel
    rw [hkey]
    simp [hmap, hne, hnend]

/-- C10 witness: a target map sending the tool-executor key to the node
name `execA` makes the router register a tool-executor node under `execA`
and return the tool-executor key. -/
theorem claim_C10_witness :
    routeOrPrepareToolExecutorModel routeFnC10 stateC10 graphC10 edgeC10w =
      (toolExecutorKeyTag, addNodeModel graphC10 "execA" GraphNodeKind.dynamicToolExecutor) :=
  (claim_C10_amended routeFnC10 stateC10 graphC10 edgeC10w rfl).2 "execA" rfl
    (by decide) (by decide)

/-- One loop iteration whose LLM outcome is a tool call dispatched to
regular execution (the looked-up entry is a plain tool, or the name does
not begin with `handoff_to_`): the model message and one tool-result
message — built from the thrown fault or the returned value — are
appended, and the loop continues with one unit less of budget and the
next LLM call index. -/
theorem runLoop_step_regular (env : Env)
    (doHandoff : List ChatMessage → JSValue → HandoffConfig → Option JSValue → Nat → RunOut)
    (hooks : AgentRunnerHooks) (executingAgent : Option ConfigurableAgentTool)
    (toolMap : List (String × RegisteredTool)) (args : JSValue) (maxIter : Nat)
    (fuel : Nat) (messages : List ChatMessage) (k : Nat)
    (toolName : String) (toolArgs : JSValue) (rs : Option String) (entry : RegisteredTool)
    (hllm : env.llm k = LLMOutcome.ok (ParsedAction.toolCall toolName toolArgs) rs)
    (hmap : lookupMap toolMap toolName = some entry)
    (hreg : (∃ t, entry = RegisteredTool.plain t) ∨
      toolName.startsWith "handoff_to_" = false) :
    runLoopAux env doHandoff hooks executingAgent toolMap args maxIter (fuel + 1) messages k =
      (match execOfEntry entry toolArgs with
       | ToolOutcome.thrown em =>
          runLoopAux env doHandoff hooks executingAgent toolMap args maxIter fuel
            (messages ++ [ChatMessage.modelTool toolName toolArgs rs,
              ChatMessage.toolResult (mkThrownToolResult toolName em)]) (k + 1)
       | ToolOutcome.ret v =>
          runLoopAux env doHandoff hooks executingAgent toolMap args maxIter fuel
            (messages ++ [ChatMessage.modelTool toolName toolArgs rs,
              ChatMessage.toolResult (mkRetToolResult toolName v)]) (k + 1)) := by
  rcases hreg with ⟨t, rfl⟩ | hsw
  · simp only [runLoopAux, hllm, hmap]
    cases hx : t.exec toolArgs <;> simp [execOfEntry, hx]
  · simp only [runLoopAux, hllm, hmap]
    cases entry with
    | plain t =>
        cases hx : t.exec toolArgs <;> simp [execOfEntry, hx]
    | agent a =>
        simp only [hsw]
        cases hx : a.exec toolArgs <;> simp [execOfEntry, hx]

/-- C1: as stated the claim is false on the code. With an empty tool map,
an LLM that requests the unregistered tool `mystery_tool`, and an
iteration budget of 2, the run appends the error as a `system_error`
tool-result message but then returns an error result with termination
reason `error` after a single LLM call — it does not continue to the
second iteration. -/
theorem claim_C1_counterexample :
    (AgentRunner.run envC1 1 [] (JSValue.obj []) cfgC1 defaultHooks none 0).nextCall = 1 ∧
    (AgentRunner.run envC1 1 [] (JSValue.obj []) cfgC1 defaultHooks none 0).result.terminationReason
      = some AgentRunTerminationReason.error ∧
    (AgentRunner.run envC1 1 [] (JSValue.obj []) cfgC1 defaultHooks none 0).finalMessages =
      [ChatMessage.modelTool "mystery_tool" (JSValue.obj []) none,
       ChatMessage.toolResult
         (systemErrorMessage "Agent loop error: Agent requested unknown tool: mystery_tool")] :=
  ⟨rfl, rfl, rfl⟩

/-- C1 (amended): for every iteration in which the LLM's parsed action is
a tool call naming a tool that is neither in the runner's tool map nor a
synthesized handoff pseudo-tool, the loop appends the model message and a
`system_error` tool-result message reporting the unknown tool, and
returns an error result with termination reason `error` immediately: the
run terminates through the error hook, and no fault escapes `run`. -/
theorem claim_C1_amended (env : Env)
    (doHandoff : List ChatMessage → JSValue → HandoffConfig → Option JSValue → Nat → RunOut)
    (hooks : AgentRunnerHooks) (executingAgent : Option ConfigurableAgentTool)
    (toolMap : List (String × RegisteredTool)) (args : JSValue) (maxIter : Nat)
    (fuel : Nat) (messages : List ChatMessage) (k : Nat)
    (toolName : String) (toolArgs : JSValue) (rs : Option String)
    (hllm : env.llm k = LLMOutcome.ok (ParsedAction.toolCall toolName toolArgs) rs)
    (hmap : lookupMap toolMap toolName = none)
    (hr : ∀ e s r, (hooks.createErrorResult e s r).terminationReason = some r) :
    runLoopAux env doHandoff hooks executingAgent toolMap args maxIter (fuel + 1) messages k =
      ⟨hooks.createErrorResult
          ("Agent loop error: " ++ ("Agent requested unknown tool: " ++ toolName))
          (messages ++ [ChatMessage.modelTool toolName toolArgs rs,
            ChatMessage.toolResult (systemErrorMessage
              ("Agent loop error: " ++ ("Agent requested unknown tool: " ++ toolName)))])
          AgentRunTerminationReason.error,
        messages ++ [ChatMessage.modelTool toolName toolArgs rs,
          ChatMessage.toolResult (systemErrorMessage
            ("Agent loop error: " ++ ("Agent requested unknown tool: " ++ toolName)))],
        k + 1⟩ ∧
    (runLoopAux env doHandoff hooks executingAgent toolMap args maxIter
        (fuel + 1) messages k).result.terminationReason
      = some AgentRunTerminationReason.error := by
  have h1 : runLoopAux env doHandoff hooks executingAgent toolMap args maxIter
      (fuel + 1) messages k =
      ⟨hooks.createErrorResult
          ("Agent loop error: " ++ ("Agent requested unknown tool: " ++ toolName))
          (messages ++ [ChatMessage.modelTool toolName toolArgs rs,
            ChatMessage.toolResult (systemErrorMessage
              ("Agent loop error: " ++ ("Agent requested unknown tool: " ++ toolName)))])
          AgentRunTerminationReason.error,
        messages ++ [ChatMessage.modelTool toolName toolArgs rs,
          ChatMessage.toolResult (systemErrorMessage
            ("Agent loop error: " ++ ("Agent requested unknown tool: " ++ toolName)))],
        k + 1⟩ := by
    simp only [runLoopAux, hllm, hmap]
    simp [agentLoopFail]
  exact ⟨h1, by rw [h1]; exact hr _ _ _⟩

/-- C1 witness: the amended statement instantiated on the concrete
unknown-tool scenario. -/
theorem claim_C1_witness :
    (runLoopAux envC1 inertHandoff defaultHooks none [] (JSValue.obj []) 2 2 [] 0).result.terminationReason
      = some AgentRunTerminationReason.error :=
  (claim_C1_amended envC1 inertHandoff defaultHooks none [] (JSValue.obj []) 2 1 [] 0
    "mystery_tool" (JSValue.obj []) none rfl rfl (fun _ _ _ => rfl)).2

/-- C4: for every iteration in which a registered (plain) tool's `execute`
throws, the loop appends exactly one tool-result message — error-flagged
and carrying the error text — after the model message, and proceeds to the
next iteration (the same loop with one unit less of budget) rather than
terminating the run. -/
theorem claim_C4 (env : Env)
    (doHandoff : List ChatMessage → JSValue → HandoffConfig → Option JSValue → Nat → RunOut)
    (hooks : AgentRunnerHooks) (executingAgent : Option ConfigurableAgentTool)
    (toolMap : List (String × RegisteredTool)) (args : JSValue) (maxIter : Nat)
    (fuel : Nat) (messages : List ChatMessage) (k : Nat)
    (toolName : String) (toolArgs : JSValue) (rs : Option String) (t : ToolDef) (em : String)
    (hllm : env.llm k = LLMOutcome.ok (ParsedAction.toolCall toolName toolArgs) rs)
    (hmap : lookupMap toolMap toolName = some (RegisteredTool.plain t))
    (hexec : t.exec toolArgs = ToolOutcome.thrown em) :
    runLoopAux env doHandoff hooks executingAgent toolMap args maxIter (fuel + 1) messages k =
      runLoopAux env doHandoff hooks executingAgent toolMap args maxIter fuel
        (messages ++ [ChatMessage.modelTool toolName toolArgs rs,
          ChatMessage.toolResult (mkThrownToolResult toolName em)]) (k + 1) ∧
    (mkThrownToolResult toolName em).isError = true ∧
    (mkThrownToolResult toolName em).resultText =
      JSValue.str ("Error during tool execution: " ++ em) := by
  have step := runLoop_step_regular env doHandoff hooks executingAgent toolMap args maxIter
    fuel messages k toolName toolArgs rs (RegisteredTool.plain t) hllm hmap (Or.inl ⟨t, rfl⟩)
  rw [step]
  simp [execOfEntry, hexec, mkThrownToolResult]

/-- C4 witness: one iteration with the always-throwing tool `t4` appends
the model message and the error-flagged tool result, then continues. -/
theorem claim_C4_witness :
    runLoopAux envC4 inertHandoff defaultHooks none mapC4 (JSValue.obj []) 2 2 [] 0 =
      runLoopAux envC4 inertHandoff defaultHooks none mapC4 (JSValue.obj []) 2 1
        [ChatMessage.modelTool "t4" (JSValue.obj []) none,
         ChatMessage.toolResult (mkThrownToolResult "t4" "boom")] 1 :=
  (claim_C4 envC4 inertHandoff defaultHooks none mapC4 (JSValue.obj []) 2 1 [] 0
    "t4" (JSValue.obj []) none toolC4 "boom" rfl rfl rfl).1

/-- C5: as stated the claim is false on the code. The tool `t5` returns
`\x7b error: "" \x7d`, an object carrying an `error` field; the appended
tool-result message nevertheless has `isError = false` (the code requires
the `error` field to be truthy), while the claim's condition demands an
error flag for any present `error` field. -/
theorem claim_C5_counterexample :
    (AgentRunner.run envC5 1 [] (JSValue.obj []) cfgC5 defaultHooks none 0).finalMessages =
      [ChatMessage.modelTool "t5" (JSValue.obj []) none,
       ChatMessage.toolResult
         { toolName := "t5"
           resultText := JSValue.str (jsStringify (JSValue.obj [("error", JSValue.str "")]))
           isError := false
           error := none
           resultData := some (JSValue.obj [("error", JSValue.str "")]) }] ∧
    claimC5Flag [("error", JSValue.str "")] = true :=
  ⟨rfl, rfl⟩

/-- C5 (amended): for every tool execution that returns normally with an
object result, the appended tool-result message is flagged as an error
exactly when the result object carries a truthy `error` field or carries
`success: false`; otherwise it is flagged as a non-error result. The loop
then proceeds to the next iteration with that single message appended
after the model message. -/
theorem claim_C5_amended (env : Env)
    (doHandoff : List ChatMessage → JSValue → HandoffConfig → Option JSValue → Nat → RunOut)
    (hooks : AgentRunnerHooks) (executingAgent : Option ConfigurableAgentTool)
    (toolMap : List (String × RegisteredTool)) (args : JSValue) (maxIter : Nat)
    (fuel : Nat) (messages : List ChatMessage) (k : Nat)
    (toolName : String) (toolArgs : JSValue) (rs : Option String) (t : ToolDef)
    (fields : List (String × JSValue))
    (hllm : env.llm k = LLMOutcome.ok (ParsedAction.toolCall toolName toolArgs) rs)
    (hmap : lookupMap toolMap toolName = some (RegisteredTool.plain t))
    (hexec : t.exec toolArgs = ToolOutcome.ret (JSValue.obj fields)) :
    runLoopAux env doHandoff hooks executingAgent toolMap args maxIter (fuel + 1) messages k =
      runLoopAux env doHandoff hooks executingAgent toolMap args maxIter fuel
        (messages ++ [ChatMessage.modelTool toolName toolArgs rs,
          ChatMessage.toolResult (mkRetToolResult toolName (JSValue.obj fields))]) (k + 1) ∧
    (mkRetToolResult toolName (JSValue.obj fields)).isError = claimC5FlagAmended fields := by
  have step := runLoop_step_regular env doHandoff hooks executingAgent toolMap args maxIter
    fuel messages k toolName toolArgs rs (RegisteredTool.plain t) hllm hmap (Or.inl ⟨t, rfl⟩)
  rw [step]
  constructor
  · simp [execOfEntry, hexec]
  · exact toolResultFlag_obj fields _

/-- C5 witness: the amended statement instantiated on a tool returning
`\x7b success: false \x7d`, whose tool-result message is error-flagged. -/
theorem claim_C5_witness :
    (mkRetToolResult "t5w" (JSValue.obj [("success", JSValue.bool false)])).isError
      = claimC5FlagAmended [("success", JSValue.bool false)] :=
  (claim_C5_amended envC5w inertHandoff defaultHooks none mapC5w (JSValue.obj []) 2 1 [] 0
    "t5w" (JSValue.obj []) none toolC5w [("success", JSValue.bool false)] rfl rfl rfl).2

/-- C7: for every handoff whose target agent name resolves in the registry
to nothing or to a plain tool, the handoff executor returns the error
result immediately — with the not-found message, the unchanged history and
reason `error` — for every possible recursive runner, and the LLM call
counter is unchanged: no target agent is invoked. -/
theorem claim_C7 (env : Env) (runner : RunnerSig) (cur : List ChatMessage)
    (oArgs : JSValue) (hc : HandoffConfig) (dMax : Nat)
    (dS dE : String → List ChatMessage → AgentRunTerminationReason → ConfigurableAgentResult)
    (la : Option JSValue) (k : Nat)
    (hmiss : ∀ a, lookupMap env.registry hc.targetAgentName ≠ some (RegisteredTool.agent a))
    (hr : ∀ e s r, (dE e s r).terminationReason = some r) :
    execHandoffWith env runner cur oArgs hc dMax dS dE la k =
      ⟨dE ("Handoff target \x27" ++ hc.targetAgentName ++
            "\x27 not found or is not a ConfigurableAgentTool.")
          cur AgentRunTerminationReason.error,
        cur, k⟩ ∧
    (execHandoffWith env runner cur oArgs hc dMax dS dE la k).result.terminationReason
      = some AgentRunTerminationReason.error ∧
    (execHandoffWith env runner cur oArgs hc dMax dS dE la k).nextCall = k := by
  have h1 : execHandoffWith env runner cur oArgs hc dMax dS dE la k =
      ⟨dE ("Handoff target \x27" ++ hc.targetAgentName ++
            "\x27 not found or is not a ConfigurableAgentTool.")
          cur AgentRunTerminationReason.error,
        cur, k⟩ := by
    cases hlook : lookupMap env.registry hc.targetAgentName with
    | none => simp [execHandoffWith, hlook]
    | some rt =>
        cases rt with
        | plain t => simp [execHandoffWith, hlook]
        | agent a => exact absurd hlook (hmiss a)
  exact ⟨h1, by rw [h1]; exact hr _ _ _, by rw [h1]⟩

/-- C7 witness: a handoff to the unregistered target `ghost_agent`, with
the real runner as the recursive runner, resolves to the immediate error
result and makes no LLM call. -/
theorem claim_C7_witness :
    (execHandoffWith envC7 (AgentRunner.run envC7 5) [] (JSValue.obj []) hcC7 3
        defaultHooks.createSuccessResult defaultHooks.createErrorResult none 0).result.terminationReason
      = some AgentRunTerminationReason.error ∧
    (execHandoffWith envC7 (AgentRunner.run envC7 5) [] (JSValue.obj []) hcC7 3
        defaultHooks.createSuccessResult defaultHooks.createErrorResult none 0).nextCall = 0 :=
  ⟨(claim_C7 envC7 (AgentRunner.run envC7 5) [] (JSValue.obj []) hcC7 3
      defaultHooks.createSuccessResult defaultHooks.createErrorResult none 0
      (fun _ h => Option.noConfusion h) (fun _ _ _ => rfl)).2.1,
   (claim_C7 envC7 (AgentRunner.run envC7 5) [] (JSValue.obj []) hcC7 3
      defaultHooks.createSuccessResult defaultHooks.createErrorResult none 0
      (fun _ h => Option.noConfusion h) (fun _ _ _ => rfl)).2.2⟩

/-- C8: for every iteration in which the external LLM call throws, the
loop appends one `system_error` tool-result diagnostic recording the
error and returns an error result with reason `error` immediately: exactly
one LLM outcome is consumed (no retry) and no further iteration runs. -/
theorem claim_C8 (env : Env)
    (doHandoff : List ChatMessage → JSValue → HandoffConfig → Option JSValue → Nat → RunOut)
    (hooks : AgentRunnerHooks) (executingAgent : Option ConfigurableAgentTool)
    (toolMap : List (String × RegisteredTool)) (args : JSValue) (maxIter : Nat)
    (fuel : Nat) (messages : List ChatMessage) (k : Nat) (m : String)
    (hllm : env.llm k = LLMOutcome.fail m)
    (hr : ∀ e s r, (hooks.createErrorResult e s r).terminationReason = some r) :
    runLoopAux env doHandoff hooks executingAgent toolMap args maxIter (fuel + 1) messages k =
      ⟨hooks.createErrorResult ("LLM call failed: " ++ m)
          (messages ++ [ChatMessage.toolResult (systemErrorMessage ("LLM call failed: " ++ m))])
          AgentRunTerminationReason.error,
        messages ++ [ChatMessage.toolResult (systemErrorMessage ("LLM call failed: " ++ m))],
        k + 1⟩ ∧
    (runLoopAux env doHandoff hooks executingAgent toolMap args maxIter
        (fuel + 1) messages k).result.terminationReason
      = some AgentRunTerminationReason.error := by
  have h1 : runLoopAux env doHandoff hooks executingAgent toolMap args maxIter
      (fuel + 1) messages k =
      ⟨hooks.createErrorResult ("LLM call failed: " ++ m)
          (messages ++ [ChatMessage.toolResult (systemErrorMessage ("LLM call failed: " ++ m))])
          AgentRunTerminationReason.error,
        messages ++ [ChatMessage.toolResult (systemErrorMessage ("LLM call failed: " ++ m))],
        k + 1⟩ := by
    simp only [runLoopAux, hllm]
  exact ⟨h1, by rw [h1]; exact hr _ _ _⟩

/-- C8 witness: a failing LLM transport yields the immediate error result
after a single consumed LLM outcome. -/
theorem claim_C8_witness :
    (runLoopAux envC8 inertHandoff defaultHooks none [] (JSValue.obj []) 3 3 [] 0).result.terminationReason
      = some AgentRunTerminationReason.error :=
  (claim_C8 envC8 inertHandoff defaultHooks none [] (JSValue.obj []) 3 2 [] 0
    "connection reset" rfl (fun _ _ _ => rfl)).2

/-- When every remaining LLM outcome is a tool call on a plain registered
tool and the executing agent has no `max_iterations` handoff, the loop
consumes exactly one LLM outcome per unit of budget and ends in the error
result with reason `max_iterations` over some final history. -/
theorem runLoop_all_plain (env : Env)
    (doHandoff : List ChatMessage → JSValue → HandoffConfig → Option JSValue → Nat → RunOut)
    (hooks : AgentRunnerHooks) (executingAgent : Option ConfigurableAgentTool)
    (toolMap : List (String × RegisteredTool)) (args : JSValue) (maxIter : Nat)
    (hagent : maxIterHandoffLookup executingAgent = none) :
    ∀ fuel messages k, (∀ i, i < fuel → PlainToolCallAt env toolMap (k + i)) →
      ∃ M, runLoopAux env doHandoff hooks executingAgent toolMap args maxIter fuel messages k =
        ⟨hooks.createErrorResult
            ("Agent reached maximum iterations (" ++ toString maxIter ++ ")")
            M AgentRunTerminationReason.max_iterations,
          M, k + fuel⟩ := by
  intro fuel
  induction fuel with
  | zero =>
      intro messages k _
      refine ⟨messages, ?_⟩
      simp [runLoopAux, hagent]
  | succ f ih =>
      intro messages k h
      have h0 := h 0 (Nat.succ_pos f)
      rw [Nat.add_zero] at h0
      obtain ⟨toolName, toolArgs, rs, t, hllm, hmap⟩ := h0
      have step := runLoop_step_regular env doHandoff hooks executingAgent toolMap args maxIter
        f messages k toolName toolArgs rs (RegisteredTool.plain t) hllm hmap (Or.inl ⟨t, rfl⟩)
      rw [step]
      have hshift : ∀ i, i < f → PlainToolCallAt env toolMap (k + 1 + i) := by
        intro i hi
        have e : k + 1 + i = k + (i + 1) := by omega
        rw [e]
        exact h (i + 1) (by omega)
      have eidx : k + 1 + f = k + (f + 1) := by omega
      cases hx : t.exec toolArgs with
      | thrown em =>
          simp only [execOfEntry, hx]
          obtain ⟨M, hM⟩ := ih
            (messages ++ [ChatMessage.modelTool toolName toolArgs rs,
              ChatMessage.toolResult (mkThrownToolResult toolName em)])
            (k + 1) hshift
          rw [eidx] at hM
          exact ⟨M, hM⟩
      | ret v =>
          simp only [execOfEntry, hx]
          obtain ⟨M, hM⟩ := ih
            (messages ++ [ChatMessage.modelTool toolName toolArgs rs,
              ChatMessage.toolResult (mkRetToolResult toolName v)])
            (k + 1) hshift
          rw [eidx] at hM
          exact ⟨M, hM⟩

/-- C2: for every configuration with `maxIterations = N` (`N ≥ 1`) and an
executing agent with no `max_iterations` handoff configured, if every LLM
outcome is a tool call on a registered plain (non-handoff) tool — never a
final answer, never an error — then `run` consumes exactly N LLM outcomes
and returns the error hook's result with termination reason
`max_iterations`. -/
theorem claim_C2 (env : Env) (hfuel : Nat) (initialMessages : List ChatMessage)
    (args : JSValue) (config : AgentRunnerConfig) (hooks : AgentRunnerHooks)
    (ag : ConfigurableAgentTool) (k N : Nat)
    (hN : config.maxIterations = N) (_hN1 : 1 ≤ N)
    (hagent : maxIterHandoffLookup (some ag) = none)
    (hcalls : ∀ i, i < N →
      PlainToolCallAt env (buildToolMap env config.tools (some ag)) (k + i))
    (hr : ∀ e s r, (hooks.createErrorResult e s r).terminationReason = some r) :
    (AgentRunner.run env (hfuel + 1) initialMessages args config hooks (some ag) k).nextCall
      = k + N ∧
    (AgentRunner.run env (hfuel + 1) initialMessages args config hooks
        (some ag) k).result.terminationReason
      = some AgentRunTerminationReason.max_iterations := by
  subst hN
  have hrun : AgentRunner.run env (hfuel + 1) initialMessages args config hooks (some ag) k =
      runLoopAux env
        (fun cur oArgs hc la k2 =>
          execHandoffWith env (AgentRunner.run env hfuel) cur oArgs hc config.maxIterations
            hooks.createSuccessResult hooks.createErrorResult la k2)
        hooks (some ag) (buildToolMap env config.tools (some ag)) args config.maxIterations
        config.maxIterations
        (match hooks.prepareInitialMessages with
         | some f => f initialMessages
         | none => initialMessages)
        k := rfl
  rw [hrun]
  obtain ⟨M, hM⟩ := runLoop_all_plain env
    (fun cur oArgs hc la k2 =>
      execHandoffWith env (AgentRunner.run env hfuel) cur oArgs hc config.maxIterations
        hooks.createSuccessResult hooks.createErrorResult la k2)
    hooks (some ag) (buildToolMap env config.tools (some ag)) args config.maxIterations
    hagent config.maxIterations
    (match hooks.prepareInitialMessages with
     | some f => f initialMessages
     | none => initialMessages)
    k hcalls
  rw [hM]
  exact ⟨rfl, hr _ _ _⟩

/-- C2 witness: with budget 2, an agent with no handoffs, and an LLM that
always calls the registered tool `t2`, the run makes exactly 2 LLM calls
and ends with reason `max_iterations`. -/
theorem claim_C2_witness :
    (AgentRunner.run envC2 1 [] (JSValue.obj []) cfgC2 defaultHooks (some agentC2) 0).nextCall
      = 0 + 2 ∧
    (AgentRunner.run envC2 1 [] (JSValue.obj []) cfgC2 defaultHooks
        (some agentC2) 0).result.terminationReason
      = some AgentRunTerminationReason.max_iterations :=
  claim_C2 envC2 0 [] (JSValue.obj []) cfgC2 defaultHooks agentC2 0 2 rfl (by decide)
    rfl (fun _ _ => ⟨"t2", JSValue.obj [], none, toolC2, rfl, rfl⟩) (fun _ _ _ => rfl)

/-- A result known to carry exactly the history `s` carries any prefix of
`s` as a prefix of whatever history it is observed to hold. -/
theorem prefix_steps_eq {base s : List ChatMessage} (hs : PrefixOf base s)
    {r : ConfigurableAgentResult} (hr : r.intermediateSteps = some s) :
    ∀ steps, r.intermediateSteps = some steps → PrefixOf base steps := by
  intro steps h
  rw [hr] at h
  exact (Option.some.inj h) ▸ hs

/-- The handoff executor preserves history prefixes: whatever result the
recursive runner produces, the post-processing either removes the
intermediate steps, or replaces them with the pre-handoff history (which
extends `base`) plus the target's history; the resolution-failure branch
returns the error hook applied to the unchanged history. -/
theorem execHandoff_carries (env : Env) (runner : RunnerSig)
    (cur : List ChatMessage) (oArgs : JSValue) (hc : HandoffConfig) (dMax : Nat)
    (dS dE : String → List ChatMessage → AgentRunTerminationReason → ConfigurableAgentResult)
    (la : Option JSValue) (k : Nat) (base : List ChatMessage)
    (hpre : PrefixOf base cur)
    (hE : ∀ e s r, (dE e s r).intermediateSteps = some s) :
    CarriesOnly base (execHandoffWith env runner cur oArgs hc dMax dS dE la k) := by
  cases hlook : lookupMap env.registry hc.targetAgentName with
  | none =>
      simp only [execHandoffWith, hlook]
      exact ⟨prefix_steps_eq hpre (hE _ _ _), hpre⟩
  | some rt =>
      cases rt with
      | plain t =>
          simp only [execHandoffWith, hlook]
          exact ⟨prefix_steps_eq hpre (hE _ _ _), hpre⟩
      | agent a =>
          simp only [execHandoffWith, hlook]
          by_cases hinc : a.config.includeIntermediateStepsOnReturn = some true
          · rw [if_pos hinc]
            refine ⟨?_, hpre⟩
            intro steps hs
            simp only at hs
            exact (Option.some.inj hs) ▸ prefixOf_extend hpre _
          · rw [if_neg hinc]
            refine ⟨?_, hpre⟩
            intro steps hs
            simp at hs

/-- The loop preserves history prefixes: starting from any history that
extends `base`, the loop only ever appends messages, every result it
produces through steps-faithful hooks carries such an extended history,
and every handoff outcome it forwards carries `base` by the handoff
hypothesis. -/
theorem runLoop_carries (env : Env)
    (doHandoff : List ChatMessage → JSValue → HandoffConfig → Option JSValue → Nat → RunOut)
    (hooks : AgentRunnerHooks) (executingAgent : Option ConfigurableAgentTool)
    (toolMap : List (String × RegisteredTool)) (args : JSValue) (maxIter : Nat)
    (base : List ChatMessage)
    (hS : ∀ o s r, (hooks.createSuccessResult o s r).intermediateSteps = some s)
    (hE : ∀ e s r, (hooks.createErrorResult e s r).intermediateSteps = some s)
    (hDo : ∀ cur oArgs hc la k2, PrefixOf base cur →
      CarriesOnly base (doHandoff cur oArgs hc la k2)) :
    ∀ fuel messages k, PrefixOf base messages →
      CarriesOnly base
        (runLoopAux env doHandoff hooks executingAgent toolMap args maxIter fuel messages k) := by
  intro fuel
  induction fuel with
  | zero =>
      intro messages k hpre
      simp only [runLoopAux]
      cases hmh : maxIterHandoffLookup executingAgent with
      | some hc =>
          exact ⟨fun steps hs => (hDo messages args hc none k hpre).1 steps hs, hpre⟩
      | none =>
          exact ⟨prefix_steps_eq hpre (hE _ _ _), hpre⟩
  | succ f ih =>
      intro messages k hpre
      cases hl : env.llm k with
      | fail m =>
          simp only [runLoopAux, hl]
          exact ⟨prefix_steps_eq (prefixOf_extend hpre _) (hE _ _ _),
            prefixOf_extend hpre _⟩
      | ok pa rs =>
          cases pa with
          | finalAnswer ans =>
              simp only [runLoopAux, hl]
              exact ⟨prefix_steps_eq (prefixOf_extend hpre _) (hS _ _ _),
                prefixOf_extend hpre _⟩
          | parseError e =>
              simp only [runLoopAux, hl, agentLoopFail]
              exact ⟨prefix_steps_eq (prefixOf_extend hpre _) (hE _ _ _),
                prefixOf_extend hpre _⟩
          | toolCall toolName toolArgs =>
              cases hm : lookupMap toolMap toolName with
              | none =>
                  simp only [runLoopAux, hl, hm, agentLoopFail]
                  exact ⟨prefix_steps_eq
                      (prefixOf_extend (prefixOf_extend hpre _) _) (hE _ _ _),
                    prefixOf_extend (prefixOf_extend hpre _) _⟩
              | some entry =>
                  cases entry with
                  | plain t =>
                      cases hx : t.exec toolArgs with
                      | thrown em =>
                          simp only [runLoopAux, hl, hm, execOfEntry, hx]
                          exact ih _ (k + 1)
                            (prefixOf_extend (prefixOf_extend hpre _) _)
                      | ret v =>
                          simp only [runLoopAux, hl, hm, execOfEntry, hx]
                          exact ih _ (k + 1)
                            (prefixOf_extend (prefixOf_extend hpre _) _)
                  | agent a =>
                      cases hsw : toolName.startsWith "handoff_to_" with
                      | true =>
                          cases hh : llmHandoffLookup executingAgent a.name with
                          | some hc =>
                              simp only [runLoopAux, hl, hm, hsw, hh]
                              refine ⟨?_, prefixOf_extend hpre _⟩
                              intro steps hs
                              exact (hDo _ toolArgs hc (some toolArgs) (k + 1)
                                (prefixOf_extend hpre _)).1 steps hs
                          | none =>
                              simp only [runLoopAux, hl, hm, hsw, hh, agentLoopFail]
                              exact ⟨prefix_steps_eq
                                  (prefixOf_extend (prefixOf_extend hpre _) _) (hE _ _ _),
                                prefixOf_extend (prefixOf_extend hpre _) _⟩
                      | false =>
                          cases hx : a.exec toolArgs with
                          | thrown em =>
                              simp only [runLoopAux, hl, hm, hsw, execOfEntry, hx]
                              exact ih _ (k + 1)
                                (prefixOf_extend (prefixOf_extend hpre _) _)
                          | ret v =>
                              simp only [runLoopAux, hl, hm, hsw, execOfEntry, hx]
                              exact ih _ (k + 1)
                                (prefixOf_extend (prefixOf_extend hpre _) _)

/-- C6: for every call to `run` with no `prepareInitialMessages` hook and
steps-faithful hooks, whatever the outcome, the initial messages are
present, in original order, as a prefix of the runner's final message
list, and as a prefix of any message history the returned result carries:
the loop only appends messages and never reorders or mutates appended
ones. -/
theorem claim_C6 (env : Env) (hfuel : Nat) (initialMessages : List ChatMessage)
    (args : JSValue) (config : AgentRunnerConfig) (hooks : AgentRunnerHooks)
    (executingAgent : Option ConfigurableAgentTool) (k : Nat)
    (hprep : hooks.prepareInitialMessages = none)
    (hfaith : StepsFaithful hooks) :
    (∀ steps,
      (AgentRunner.run env hfuel initialMessages args config hooks
          executingAgent k).result.intermediateSteps = some steps →
        PrefixOf initialMessages steps) ∧
    PrefixOf initialMessages
      (AgentRunner.run env hfuel initialMessages args config hooks
          executingAgent k).finalMessages := by
  cases hfuel with
  | zero =>
      constructor
      · intro steps hs
        exact absurd hs (by simp [AgentRunner.run, outOfFuelResult])
      · exact prefixOf_self _
  | succ h =>
      have hrun : AgentRunner.run env (h + 1) initialMessages args config hooks
          executingAgent k =
          runLoopAux env
            (fun cur oArgs hc la k2 =>
              execHandoffWith env (AgentRunner.run env h) cur oArgs hc config.maxIterations
                hooks.createSuccessResult hooks.createErrorResult la k2)
            hooks executingAgent (buildToolMap env config.tools executingAgent) args
            config.maxIterations config.maxIterations
            (match hooks.prepareInitialMessages with
             | some f => f initialMessages
             | none => initialMessages)
            k := rfl
      rw [hrun]
      simp only [hprep]
      exact runLoop_carries env
        (fun cur oArgs hc la k2 =>
          execHandoffWith env (AgentRunner.run env h) cur oArgs hc config.maxIterations
            hooks.createSuccessResult hooks.createErrorResult la k2)
        hooks executingAgent (buildToolMap env config.tools executingAgent) args
        config.maxIterations initialMessages hfaith.1 hfaith.2
        (fun cur oArgs hc la k2 hpre =>
          execHandoff_carries env (AgentRunner.run env h) cur oArgs hc
            config.maxIterations hooks.createSuccessResult hooks.createErrorResult la k2
            initialMessages hpre hfaith.2)
        config.maxIterations initialMessages k (prefixOf_self _)

/-- C6 witness: the statement instantiated on a run that starts from one
user message and answers immediately, with the default hooks. -/
theorem claim_C6_witness :
    PrefixOf msgsC6
      (AgentRunner.run envC6 1 msgsC6 (JSValue.obj []) cfgC6 defaultHooks none 0).finalMessages :=
  (claim_C6 envC6 1 msgsC6 (JSValue.obj []) cfgC6 defaultHooks none 0 rfl
    ⟨fun _ _ _ => rfl, fun _ _ _ => rfl⟩).2

theorem lookupMap_mapSet_self {α : Type} (m : List (String × α)) (k : String) (v : α) :
    lookupMap (mapSet m k v) k = some v := by
  induction m with
  | nil => simp [mapSet, lookupMap]
  | cons p rest ih =>
      obtain ⟨k0, v0⟩ := p
      by_cases h : k0 = k
      · simp [mapSet, lookupMap, h]
      · simp [mapSet, lookupMap, h, ih]

theorem lookupMap_mapSet_isSome {α : Type} (m : List (String × α)) (k : String) (v : α)
    (x : String) (h : (lookupMap m x).isSome = true) :
    (lookupMap (mapSet m k v) x).isSome = true := by
  induction m with
  | nil => simp [lookupMap] at h
  | cons p rest ih =>
      obtain ⟨k0, v0⟩ := p
      by_cases hk : k0 = k
      · subst hk
        by_cases hx : k0 = x
        · subst hx
          simp [mapSet, lookupMap]
        · simp [mapSet, lookupMap, hx] at h ⊢
          exact h
      · by_cases hx : k0 = x
        · subst hx
          simp [mapSet, lookupMap, hk]
        · simp [mapSet, lookupMap, hk, hx] at h ⊢
          exact ih h

theorem foldl_addNode_preserves (ncs : List GraphNodeConfig) (g : StateGraphModel)
    (x : String) (h : (lookupMap g.nodes x).isSome = true) :
    (lookupMap
        ((ncs.foldl (fun g nc => addNodeModel g nc.name (nodeFactoryFor nc)) g).nodes)
        x).isSome = true := by
  induction ncs generalizing g with
  | nil => simpa using h
  | cons nc rest ih =>
      simp only [List.foldl_cons]
      exact ih _ (lookupMap_mapSet_isSome g.nodes nc.name (nodeFactoryFor nc) x h)

theorem foldl_addNode_head (nc : GraphNodeConfig) (rest : List GraphNodeConfig)
    (g : StateGraphModel) :
    (lookupMap
        (((nc :: rest).foldl (fun g n => addNodeModel g n.name (nodeFactoryFor n)) g).nodes)
        nc.name).isSome = true := by
  simp only [List.foldl_cons]
  exact foldl_addNode_preserves rest _ nc.name
    (by simp [addNodeModel, lookupMap_mapSet_self])

theorem foldl_edges_nodes (ecs : List GraphEdgeConfig) (g : StateGraphModel) :
    (ecs.foldl
        (fun g ec =>
          if knownConditionType ec.conditionType then addConditionalEdgesModel g ec else g)
        g).nodes = g.nodes := by
  induction ecs generalizing g with
  | nil => rfl
  | cons ec rest ih =>
      simp only [List.foldl_cons]
      by_cases h : knownConditionType ec.conditionType = true
      · rw [if_pos h, ih]
        rfl
      · rw [if_neg h, ih]

theorem isEmpty_false_of_lookup {α : Type} (l : List (String × α)) (x : String)
    (h : (lookupMap l x).isSome = true) : l.isEmpty = false := by
  cases l with
  | nil => simp [lookupMap] at h
  | cons p rest => rfl

/-- C9: for every graph configuration whose declared entry point matches
no declared node, the builder compiles the graph with the first declared
node as entry point when at least one node exists, and fails with the
fatal no-nodes configuration error when the configuration has zero nodes. -/
theorem claim_C9 (config : GraphConfig)
    (hmiss : config.nodes.find? (fun n => n.name == config.entryPoint) = none) :
    (∀ n rest, config.nodes = n :: rest →
      ∃ g, createAgentGraphFromConfig config = Except.ok g ∧ g.entryPoint = some n.name) ∧
    (config.nodes = [] →
      createAgentGraphFromConfig config = Except.error
        "[ConfigurableGraph] No nodes defined in graph config, cannot set entry point.") := by
  constructor
  · intro n rest hn
    rw [hn] at hmiss
    unfold createAgentGraphFromConfig
    rw [hn]
    simp only [hmiss]
    have hnodes := foldl_edges_nodes config.edges
      ((n :: rest).foldl (fun g nc => addNodeModel g nc.name (nodeFactoryFor nc))
        ⟨config.name, [], [], none⟩)
    have hlk := foldl_addNode_head n rest ⟨config.name, [], [], none⟩
    have hlk2 : (lookupMap
        ((config.edges.foldl
            (fun g ec =>
              if knownConditionType ec.conditionType then addConditionalEdgesModel g ec else g)
            ((n :: rest).foldl (fun g nc => addNodeModel g nc.name (nodeFactoryFor nc))
              ⟨config.name, [], [], none⟩)).nodes)
        n.name).isSome = true := by rw [hnodes]; exact hlk
    refine ⟨setEntryPointModel
        (config.edges.foldl
          (fun g ec =>
            if knownConditionType ec.conditionType then addConditionalEdgesModel g ec else g)
          ((n :: rest).foldl (fun g nc => addNodeModel g nc.name (nodeFactoryFor nc))
            ⟨config.name, [], [], none⟩))
        n.name, ?_, rfl⟩
    simp only [List.foldl_cons] at hlk2
    simp [compileModel, setEntryPointModel, hlk2, isEmpty_false_of_lookup _ _ hlk2]
  · intro hnil
    rw [hnil] at hmiss
    unfold createAgentGraphFromConfig
    rw [hnil]
    simp only [hmiss]

/-- C9 witness: the statement instantiated on a one-node configuration
whose entry point name matches no node: the build succeeds with `nodeA`
as entry point. -/
theorem claim_C9_witness :
    ∃ g, createAgentGraphFromConfig cfgC9 = Except.ok g ∧ g.entryPoint = some "nodeA" :=
  (claim_C9 cfgC9 rfl).1 ⟨"nodeA", "agent"⟩ [] rfl

end BrowserOperator
